import Mathlib

/-!
Verification development for the aptan package-manager pipeline
(`main.py`, classes `PlatformConfig`, `Gemini`, `AptAn`).

The Python code is shallowly embedded: the file system is a finite map
from paths (lists of name components) to file contents, tar archives are
kept in a separate table keyed by their on-disk path, and all external
effects (subprocess exit codes, network downloads, interactive prompts,
the wall clock) are supplied by an explicit `Env` record.  Each embedded
method threads an explicit `World` (file system + printed lines +
subprocess invocations + a trace of which pipeline stages ran).
-/

namespace Aptan

/-- A file-system path, as a list of name components. -/
abbrev Path := List String

/-- The install-record dictionary written by `AptAn.install_and_configure`
(`data = {"package_name": ..., "install_time": ..., "platform": ...}`). -/
structure ConfRecord where
  package_name : String
  install_time : String
  platform : String
deriving DecidableEq

/-- The JSON keys of the persisted install record, exactly the keys of the
`data` dict literal in `install_and_configure`. -/
def ConfRecord.keys : List String :=
  ["package_name", "install_time", "platform"]

/-- Rendering of the record as text (used only when a record file is re-read
as text, e.g. by an append to the same path). -/
def ConfRecord.render (r : ConfRecord) : String :=
  "\x7b \"package_name\": \"" ++ r.package_name ++ "\", \"install_time\": \"" ++
    r.install_time ++ "\", \"platform\": \"" ++ r.platform ++ "\" \x7d"

/-- Contents of a file: plain text, or the structured install record that
`install_and_configure` serializes with `json.dump`. -/
inductive FileContent where
  | text (s : String)
  | record (r : ConfRecord)
deriving DecidableEq

/-- The character stream a Python `read()` of the file yields. -/
def FileContent.asText : FileContent → String
  | .text s => s
  | .record r => r.render

/-- A broken-clock-free timestamp, the components `time.strftime` formats. -/
structure Tm where
  year : Nat
  month : Nat
  day : Nat
  hour : Nat
  minute : Nat
  second : Nat
deriving DecidableEq

def pad2 (n : Nat) : String :=
  if n < 10 then "0" ++ toString n else toString n

def pad4 (n : Nat) : String :=
  if n < 10 then "000" ++ toString n
  else if n < 100 then "00" ++ toString n
  else if n < 1000 then "0" ++ toString n
  else toString n

/-- `time.strftime("%Y-%m-%d %H:%M:%S")`. -/
def strftimeYmdHms (t : Tm) : String :=
  pad4 t.year ++ "-" ++ pad2 t.month ++ "-" ++ pad2 t.day ++ " " ++
    pad2 t.hour ++ ":" ++ pad2 t.minute ++ ":" ++ pad2 t.second

/-- `stripPrefix? base p = some r` iff `p = base ++ r`. -/
def stripPrefix? : Path → Path → Option Path
  | [], p => some p
  | _ :: _, [] => none
  | a :: as, b :: bs => if a = b then stripPrefix? as bs else none

/-- Association-list lookup on path-keyed entries (first match wins, as a
file system has at most one entry per path). -/
def lookupPath (p : Path) : List (Path × FileContent) → Option FileContent
  | [] => none
  | e :: t => if e.1 = p then some e.2 else lookupPath p t

/-- Remove every entry with the given path key. -/
def removeKey (p : Path) : List (Path × FileContent) → List (Path × FileContent)
  | [] => []
  | e :: t => if e.1 = p then removeKey p t else e :: removeKey p t

/-- Number of entries stored at a path key. -/
def countKey (p : Path) : List (Path × FileContent) → Nat
  | [] => 0
  | e :: t => (if e.1 = p then 1 else 0) + countKey p t

/-- Archive-table lookup. -/
def lookupArc (p : Path) : List (Path × List (Path × FileContent)) → Option (List (Path × FileContent))
  | [] => none
  | e :: t => if e.1 = p then some e.2 else lookupArc p t

def removeArcKey (p : Path) : List (Path × List (Path × FileContent)) → List (Path × List (Path × FileContent))
  | [] => []
  | e :: t => if e.1 = p then removeArcKey p t else e :: removeArcKey p t

/-- The file system: regular files, directories, and tar.gz archives (an
archive, a list of `(relative path, contents)` members, is kept in its own
table keyed by the archive's on-disk path). -/
structure FS where
  files : List (Path × FileContent)
  dirs : List Path
  archives : List (Path × List (Path × FileContent))
deriving DecidableEq

def FS.readFile? (fs : FS) (p : Path) : Option FileContent :=
  lookupPath p fs.files

def FS.fileExists (fs : FS) (p : Path) : Bool :=
  fs.files.any (fun e => e.1 = p)

/-- `os.path.isdir`: an explicitly created directory, or a directory implied
by a file strictly inside it. -/
def FS.isDir (fs : FS) (p : Path) : Bool :=
  fs.dirs.any (fun d => d = p) ||
    fs.files.any (fun e =>
      match stripPrefix? p e.1 with
      | some (_ :: _) => true
      | _ => false)

/-- `os.path.exists`: a file or a directory. -/
def FS.pathExists (fs : FS) (p : Path) : Bool :=
  fs.fileExists p || fs.isDir p

/-- Create or overwrite a file (`open(p, "w")` + write). -/
def FS.writeFile (fs : FS) (p : Path) (c : FileContent) : FS :=
  { fs with files := (p, c) :: removeKey p fs.files }

/-- `open(p, "a")` + write: append to the existing text, creating the file
when absent. -/
def FS.appendText (fs : FS) (p : Path) (s : String) : FS :=
  let old := match fs.readFile? p with
    | some c => c.asText
    | none => ""
  fs.writeFile p (FileContent.text (old ++ s))

/-- `os.makedirs(p, exist_ok=True)`: the directory and all its ancestors. -/
def FS.mkdirs (fs : FS) (p : Path) : FS :=
  { fs with dirs := p.inits ++ fs.dirs }

/-- `shutil.rmtree(p)`: drop every file, directory and archive at or below `p`. -/
def FS.removeTree (fs : FS) (p : Path) : FS :=
  { files := fs.files.filter (fun e => (stripPrefix? p e.1).isNone)
    dirs := fs.dirs.filter (fun d => (stripPrefix? p d).isNone)
    archives := fs.archives.filter (fun e => (stripPrefix? p e.1).isNone) }

/-- Store a tar.gz archive at a path (overwriting any previous one there). -/
def FS.putArchive (fs : FS) (p : Path) (entries : List (Path × FileContent)) : FS :=
  { fs with archives := (p, entries) :: removeArcKey p fs.archives }

def FS.lookupArchive (fs : FS) (p : Path) : Option (List (Path × FileContent)) :=
  lookupArc p fs.archives

/-- The names directly under a directory (`os.listdir`): first components of
files and directories strictly below `p`. -/
def FS.listdir (fs : FS) (p : Path) : List String :=
  ((fs.files.filterMap fun e =>
      match stripPrefix? p e.1 with
      | some (c :: _) => some c
      | _ => none) ++
    (fs.dirs.filterMap fun d =>
      match stripPrefix? p d with
      | some (c :: _) => some c
      | _ => none)).dedup

/-- The files strictly below `base`, with their paths made relative to it —
what `os.walk(base)` enumerates (directories carry no entry of their own;
they are implied by the files inside them). -/
def FS.filesUnder (fs : FS) (base : Path) : List (Path × FileContent) :=
  fs.files.filterMap fun e =>
    match stripPrefix? base e.1 with
    | some (c :: cs) => some (c :: cs, e.2)
    | _ => none

/-- `tar.extractall(dest)`: write every archive member below `dest`. -/
def extractAll (fs : FS) (dest : Path) (entries : List (Path × FileContent)) : FS :=
  entries.foldl (fun f e => f.writeFile (dest ++ e.1) e.2) fs

/-- Copy every file below `src` to the same relative path below `dst`
(the `shutil.copytree(..., dirs_exist_ok=True)` / `shutil.copy2` loop of
`install_and_configure`: merge semantics, existing entries overwritten). -/
def copyInto (fs : FS) (src dst : Path) : FS :=
  (fs.filesUnder src).foldl (fun f e => f.writeFile (dst ++ e.1) e.2) fs

/-- Path rendered for display inside messages and shell command strings. -/
def pathToString (p : Path) : String :=
  String.intercalate "/" p

/-- Observable state threaded through every embedded method: the file
system, the lines printed, the shell commands handed to `subprocess.run`,
and a ghost trace of which pipeline-stage methods were entered (pure
instrumentation used only to state when a stage ran). -/
structure World where
  fs : FS
  out : List String
  procs : List String
  calls : List String
deriving DecidableEq

def World.print (w : World) (s : String) : World :=
  { w with out := w.out ++ [s] }

def World.runProc (w : World) (c : String) : World :=
  { w with procs := w.procs ++ [c] }

def World.call (w : World) (n : String) : World :=
  { w with calls := w.calls ++ [n] }

def World.withFs (w : World) (fs : FS) : World :=
  { w with fs := fs }

def World.writeF (w : World) (p : Path) (c : FileContent) : World :=
  w.withFs (w.fs.writeFile p c)

/-- Helper for `splitlines`: split a character list at newlines. -/
def splitlinesAux : List Char → List Char → List String
  | [], cur => [String.mk cur.reverse]
  | c :: t, cur =>
    if c = '\n' then String.mk cur.reverse :: splitlinesAux t []
    else splitlinesAux t (c :: cur)

/-- Python `str.splitlines` restricted to `\n`-separated text (a trailing
newline produces no final empty element). -/
def splitlines (s : String) : List String :=
  let parts := splitlinesAux s.toList []
  if parts.getLast? = some "" then parts.dropLast else parts

/-- Python `str.lower` (ASCII). -/
def strToLower (s : String) : String :=
  String.mk (s.toList.map Char.toLower)

/-- `"\n    ".join(prompt.splitlines())`. -/
def joinLines (sep : String) (s : String) : String :=
  String.intercalate sep (splitlines s)

def charsStartWith : List Char → List Char → Bool
  | [], _ => true
  | _ :: _, [] => false
  | a :: as, b :: bs => a = b && charsStartWith as bs

def charsContain (needle : List Char) : List Char → Bool
  | [] => needle.isEmpty
  | h :: t => charsStartWith needle (h :: t) || charsContain needle t

/-- Python substring containment: `needle in hay`. -/
def hasSubstring (hay needle : String) : Bool :=
  charsContain needle.toList hay.toList

/-- Python `str.endswith`. -/
def strEndsWith (s suffix : String) : Bool :=
  charsStartWith suffix.toList.reverse s.toList.reverse

/-- `PlatformConfig`: host description plus the optional JSON key/value
config (already keyed by the current OS family, as `load_config` returns
`data.get(self.system, {})`). -/
structure PlatformConfig where
  system : String
  home_dir : Path
  config : List (String × String)
deriving DecidableEq

/-- `PlatformConfig.get_config(key, default)`. -/
def PlatformConfig.get_config (pc : PlatformConfig) (key dflt : String) : String :=
  match pc.config.find? (fun e => e.1 = key) with
  | some e => e.2
  | none => dflt

/-- The simulated Gemini collaborator; its only state is the API key. -/
structure Gemini where
  api_key : String
deriving DecidableEq

/-- `Gemini.generate_code`: deterministic template per target language.
Literal braces of the Python templates are escaped; the Python single
quotes inside templates are rendered as double quotes. -/
def Gemini.generate_code (pc : PlatformConfig) (prompt : String) (target_language : String) : String :=
  let system_label := pc.system
  if target_language = "python" then
    "def main():\n    # Translated code (Python)\n    " ++
      joinLines "\n    " prompt ++
      "\n    print(\"Running on " ++ system_label ++ "\")\n\nif __name__ == \"__main__\":\n    main()\n"
  else if target_language = "javascript" then
    "function main() \x7b\n    // Translated code (JavaScript)\n    " ++
      joinLines "\n    " prompt ++
      "\n    console.log(\"Running on " ++ system_label ++ "\");\n\x7d\nmain();\n"
  else if target_language = "swift" then
    "func main() \x7b\n    // Translated code (Swift)\n    " ++
      joinLines "\n    " prompt ++
      "\n    print(\"Running on " ++ system_label ++ "\")\n\x7d\nmain()\n"
  else
    "// Not supported: " ++ target_language

/-- External outcomes and interactive answers for one run: whether
`apt-get` exists and succeeds and what it produces (paths relative to the
temp directory), whether the URL download succeeds and which archive
members it yields, the exit status of the native build command and of
`xcodebuild`, whether an IPython session exists, the two `input()` answers
of `analyze_suitability`, and the current time. -/
structure Env where
  hasAptGet : Bool
  aptGetOk : Bool
  aptOutDirs : List Path
  aptOutFiles : List (Path × FileContent)
  downloadOk : Bool
  downloadedEntries : List (Path × FileContent)
  buildOk : Bool
  xcodebuildOk : Bool
  hasIPython : Bool
  promptNetwork : String
  promptSystem : String
  now : Tm
deriving DecidableEq

/-- `Gemini.analyze_suitability`: heuristic veto gate with two interactive
prompts (answers supplied by `Env`). -/
def Gemini.analyze_suitability (env : Env) (w : World) (source_code package_name : String) :
    Bool × World :=
  let sysCheck : World → Bool × World := fun w =>
    if hasSubstring source_code "system" then
      let w := w.print "Warning: potential sandbox issues."
      if strToLower env.promptSystem ≠ "y" then (false, w) else (true, w)
    else (true, w)
  if hasSubstring (strToLower package_name) "network" then
    let w := w.print ("Warning: " ++ package_name ++ " is networking. Consider built-in libs.")
    if strToLower env.promptNetwork ≠ "y" then (false, w) else sysCheck w
  else sysCheck w

/-- `Gemini.suggest_alternatives`. -/
def Gemini.suggest_alternatives (w : World) (package_name : String) : World :=
  if hasSubstring (strToLower package_name) "network" then
    w.print "Try: requests or socket in Python, or iOS URLSession."
  else
    w.print "No specific alternatives."

/-- `AptAn`: the pipeline object.  `gemini` is `some` exactly when an API
key was passed to `__init__`. -/
structure AptAn where
  platform_config : PlatformConfig
  gemini : Option Gemini
deriving DecidableEq

/-- `~/.aptan/sources`. -/
def AptAn.source_dir (a : AptAn) : Path :=
  a.platform_config.home_dir ++ [".aptan", "sources"]

/-- `~/.aptan/installed`. -/
def AptAn.install_dir (a : AptAn) : Path :=
  a.platform_config.home_dir ++ [".aptan", "installed"]

/-- The `os.makedirs` calls of `AptAn.__init__`. -/
def AptAn.setup (a : AptAn) (w : World) : World :=
  w.withFs ((w.fs.mkdirs a.source_dir).mkdirs a.install_dir)

/-- Apply the files and directories an external tool created below `base`. -/
def applyEntries (fs : FS) (base : Path) (ds : List Path) (es : List (Path × FileContent)) : FS :=
  let fs := ds.foldl (fun f d => f.mkdirs (base ++ d)) fs
  es.foldl (fun f e => f.writeFile (base ++ e.1) e.2) fs

/-- The `[d for d in os.listdir(p) if os.path.isdir(...)]` comprehension of
`download_source`. -/
def subdirsOf (fs : FS) (p : Path) : List String :=
  (fs.listdir p).filter (fun d => fs.isDir (p ++ [d]))

/-- `AptAn.download_source`.  On the Linux/apt-get path the temp directory
is created, the tool is invoked, and the first subdirectory it produced is
returned; tool failure (`CalledProcessError`) and an empty production
(`FileNotFoundError`) are caught and yield `none`.  Otherwise the URL is
required, the archive is downloaded to `<sources>/<name>.tar.gz` and
extracted into `<sources>/<name>`; download failure yields `none`. -/
def download_source (a : AptAn) (env : Env) (w : World) (package_name : String)
    (source_url : Option String) : Option Path × World :=
  let sourceUrl := source_url.getD ""
  if a.platform_config.system = "Linux" ∧ env.hasAptGet then
    let temp_dir := a.source_dir ++ ["temp_" ++ package_name]
    let w := w.withFs (w.fs.mkdirs temp_dir)
    let w := w.print ("Downloading " ++ package_name ++ " via apt-get source...")
    let w := w.runProc ("apt-get source " ++ package_name)
    if env.aptGetOk then
      let w := w.withFs (applyEntries w.fs temp_dir env.aptOutDirs env.aptOutFiles)
      let extracted := subdirsOf w.fs temp_dir
      match extracted with
      | [] => (none, w.print "Error: apt-get source produced no folder.")
      | d :: _ => (some (temp_dir ++ [d]), w)
    else
      (none, w.print "Error: apt-get source failed.")
  else
    if sourceUrl = "" then
      (none, w.print "No source URL provided.")
    else
      let w := w.print ("Downloading " ++ package_name ++ " from URL: " ++ sourceUrl)
      if env.downloadOk then
        let local_tar := a.source_dir ++ [package_name ++ ".tar.gz"]
        let w := w.withFs (w.fs.putArchive local_tar env.downloadedEntries)
        let extract_dir := a.source_dir ++ [package_name]
        let w := w.withFs (extractAll w.fs extract_dir env.downloadedEntries)
        (some extract_dir, w)
      else
        (none, w.print "Error: download failed.")

/-- `AptAn.convert_to_targz`: walk `source_path` and store every file under
its relative path into `<sources>/<name>.tar.gz`.  (The `except` branch of
the original guards real I/O faults that have no counterpart in this file
system model, so the archive creation always succeeds here.) -/
def convert_to_targz (a : AptAn) (w : World) (source_path : Path) (package_name : String) :
    Option Path × World :=
  let tar_file := a.source_dir ++ [package_name ++ ".tar.gz"]
  let w := w.print ("Creating tar.gz: " ++ pathToString tar_file)
  (some tar_file, w.withFs (w.fs.putArchive tar_file (w.fs.filesUnder source_path)))

/-- `AptAn.build_native`: skip (returning `False`) when there is no
`Makefile`, otherwise run the configured build command in the directory. -/
def build_native (a : AptAn) (env : Env) (w : World) (extract_dir : Path)
    (package_name : String) : Bool × World :=
  let w := w.call "build_native"
  let makefile := extract_dir ++ ["Makefile"]
  if ¬ w.fs.fileExists makefile then
    (false, w.print ("No Makefile in " ++ pathToString extract_dir ++ ". Skipping native build."))
  else
    let build_cmd := a.platform_config.get_config "build_command" "make"
    let w := w.runProc ("cd " ++ pathToString extract_dir ++ " && " ++ build_cmd)
    if env.buildOk then
      (true, w.print (package_name ++ " built successfully (native)."))
    else
      (false, w.print "Build error.")

/-- `AptAn.translate_to_language`: needs a configured Gemini and a
`main.c`; writes the translation to `<extract_dir>/<name>.<language>`. -/
def translate_to_language (a : AptAn) (w : World) (extract_dir : Path)
    (package_name target_language : String) : Bool × World :=
  let w := w.call "translate_to_language"
  match a.gemini with
  | none => (false, w.print "Gemini not configured.")
  | some _ =>
    let main_c := extract_dir ++ ["main.c"]
    if ¬ w.fs.fileExists main_c then
      (false, w.print "No main.c to translate.")
    else
      let source_code := ((w.fs.readFile? main_c).getD (FileContent.text "")).asText
      let translated := Gemini.generate_code a.platform_config source_code target_language
      if translated = "" then
        (false, w.print "Translation failed.")
      else
        let out_file := extract_dir ++ [package_name ++ "." ++ target_language]
        let w := w.writeF out_file (FileContent.text translated)
        (true, w.print ("Translated " ++ package_name ++ " (" ++ target_language ++ ")"))

/-- The scaffolded SwiftUI entry file of `build_ios_app` (braces escaped). -/
def swiftAppTemplate (package_name : String) : String :=
  "\nimport SwiftUI\n@main\nstruct " ++ package_name ++
    "App: App \x7b\n    var body: some Scene \x7b\n        WindowGroup \x7b\n            ContentView()\n        \x7d\n    \x7d\n\x7d\nstruct ContentView: View \x7b\n    var body: some View \x7b\n        Text(\"Hello from " ++
    package_name ++ "!\")\n    \x7d\n\x7d\n"

/-- `AptAn.build_ios_app`: macOS only; scaffolds a minimal project when no
`.xcodeproj` exists, then invokes `xcodebuild`. -/
def build_ios_app (a : AptAn) (env : Env) (w : World) (extract_dir : Path)
    (package_name : String) : Bool × World :=
  let w := w.call "build_ios_app"
  if a.platform_config.system ≠ "Darwin" then
    (false, w.print "iOS build requires macOS.")
  else
    let proj_files := (w.fs.listdir extract_dir).filter (fun f => strEndsWith f ".xcodeproj")
    let pw : List String × World :=
      if proj_files.isEmpty then
        let xcode_proj := extract_dir ++ [package_name ++ ".xcodeproj"]
        let w := w.withFs (w.fs.mkdirs xcode_proj)
        let w := w.writeF (xcode_proj ++ ["project.pbxproj"]) (FileContent.text "// minimal xcodeproj")
        let main_swift := extract_dir ++ ["main.swift"]
        let w :=
          if ¬ w.fs.fileExists main_swift then
            w.writeF main_swift (FileContent.text (swiftAppTemplate package_name))
          else w
        ([package_name ++ ".xcodeproj"], w)
      else (proj_files, w)
    let w := pw.2.runProc ("xcodebuild -project " ++
      pathToString (extract_dir ++ [pw.1.headD ""]) ++ " -scheme " ++ package_name ++
      " -configuration Release -destination generic/platform=iOS build")
    if env.xcodebuildOk then
      (true, w.print ("iOS app " ++ package_name ++ " built."))
    else
      (false, w.print "iOS build failed.")

/-- The install-root resolution at the top of `install_and_configure`.
The Windows install root `C:\Program Files\<name>` is modelled as the
component list `["C:", "Program Files", name]`. -/
def installPathOf (a : AptAn) (package_name : String) (install_env : Option String) : Path :=
  match install_env with
  | some e => a.install_dir ++ ["envs", e]
  | none =>
    if a.platform_config.system = "Linux" then ["usr", "local", "lib"]
    else if a.platform_config.system = "Windows" then ["C:", "Program Files", package_name]
    else ["usr", "local", "lib"]

/-- `AptAn.install_and_configure`: resolve the install root, merge-copy the
extracted tree into it, write the `<name>_config.json` install record, and
on Linux append an export line to `~/.bashrc`. -/
def install_and_configure (a : AptAn) (env : Env) (w : World) (extract_dir : Path)
    (package_name : String) (install_env : Option String) : World :=
  let w := w.call "install_and_configure"
  let install_path : Path := installPathOf a package_name install_env
  let w := w.print ("Installing " ++ package_name ++ " to: " ++ pathToString install_path)
  let w := w.withFs (w.fs.mkdirs install_path)
  let w := w.withFs (copyInto w.fs extract_dir install_path)
  let conf_file := install_path ++ [package_name ++ "_config.json"]
  let data : ConfRecord :=
    { package_name := package_name
      install_time := strftimeYmdHms env.now
      platform := a.platform_config.system }
  let w := w.writeF conf_file (FileContent.record data)
  let w :=
    if a.platform_config.system = "Linux" then
      let bashrc := a.platform_config.home_dir ++ [".bashrc"]
      w.withFs (w.fs.appendText bashrc
        ("\n# AptAn for " ++ package_name ++ "\nexport PATH=\"" ++
          pathToString install_path ++ ":$PATH\"\n"))
    else w
  w.print ("Installation complete for " ++ package_name ++ ".")

/-- Errors that escape the embedded methods uncaught. -/
inductive PyErr where
  | fileNotFound
deriving DecidableEq

/-- The build-or-translate decision block of `AptAn.install_package`
(lines 442–474): the chain of `target_platform` tests with the silent
native fallback in the final `else`.  The `python` branch re-opens
`main.c` without an existence check, so a missing file raises. -/
def install_package_dispatch (a : AptAn) (env : Env) (w : World) (extracted : Path)
    (package_name target_platform : String) (install_env : Option String) :
    Except PyErr Bool × World :=
  if target_platform = "python" ∧ a.gemini.isSome then
    match w.fs.readFile? (extracted ++ ["main.c"]) with
    | none => (.error PyErr.fileNotFound, w)
    | some code =>
      if env.hasIPython then
        let _py := Gemini.generate_code a.platform_config code.asText "python"
        (.ok true, w.print "Inserted Python code into next cell.")
      else
        (.ok true, w.print "No IPython session found.")
  else if target_platform = "native" then
    let r := build_native a env w extracted package_name
    if r.1 then (.ok true, install_and_configure a env r.2 extracted package_name install_env)
    else (.ok false, r.2)
  else if target_platform = "ios" then
    let r := build_ios_app a env w extracted package_name
    if r.1 then (.ok true, r.2.print ("iOS app " ++ package_name ++ " built successfully."))
    else (.ok false, r.2)
  else if target_platform = "javascript" ∨ target_platform = "swift" then
    let r := translate_to_language a w extracted package_name target_platform
    if r.1 then (.ok true, install_and_configure a env r.2 extracted package_name install_env)
    else (.ok false, r.2)
  else
    let w := w.print ("Unknown target " ++ target_platform ++ ". Attempting native build.")
    let r := build_native a env w extracted package_name
    if r.1 then (.ok true, install_and_configure a env r.2 extracted package_name install_env)
    else (.ok false, r.2)

/-- The Gemini suitability gate of `install_package` (lines 434–440):
returns `true` when the pipeline must abort (analysis rejected). -/
def install_package_gate (a : AptAn) (env : Env) (w : World) (extracted : Path)
    (package_name : String) : Bool × World :=
  let main_c := extracted ++ ["main.c"]
  if w.fs.fileExists main_c ∧ a.gemini.isSome then
    let code := ((w.fs.readFile? main_c).getD (FileContent.text "")).asText
    let ar := Gemini.analyze_suitability env w code package_name
    if ar.1 then (false, ar.2)
    else (true, Gemini.suggest_alternatives ar.2 package_name)
  else (false, w)

/-- `AptAn.install_package`: download, repack, re-extract into a fresh
`<name>_extracted` directory, run the optional Gemini suitability gate,
then dispatch on the target platform. -/
def install_package (a : AptAn) (env : Env) (w : World) (package_name : String)
    (source_url : Option String) (target_platform : String) (install_env : Option String) :
    Except PyErr Bool × World :=
  let dl := download_source a env w package_name source_url
  match dl with
  | (none, w) => (.ok false, w)
  | (some src_dir, w) =>
    let cv := convert_to_targz a w src_dir package_name
    match cv with
    | (none, w) => (.ok false, w)
    | (some tarred, w) =>
      let extracted := a.source_dir ++ [package_name ++ "_extracted"]
      let fs1 := if w.fs.pathExists extracted then w.fs.removeTree extracted else w.fs
      let w := w.withFs (fs1.mkdirs extracted)
      match w.fs.lookupArchive tarred with
      | none => (.ok false, w.print "Extraction error.")
      | some entries =>
        let w := w.withFs (extractAll w.fs extracted entries)
        let gate := install_package_gate a env w extracted package_name
        if gate.1 then (.ok false, gate.2)
        else install_package_dispatch a env gate.2 extracted package_name target_platform install_env

/-- The world state reached by `install_package` after `convert_to_targz`
and the fresh re-extraction into `<name>_extracted` (an abbreviation for
stating intermediate-state lemmas; it repeats the corresponding steps of
`install_package` verbatim). -/
def postExtractWorld (a : AptAn) (w1 : World) (src : Path) (pkg : String) : World :=
  let tar := a.source_dir ++ [pkg ++ ".tar.gz"]
  let extracted := a.source_dir ++ [pkg ++ "_extracted"]
  let w2 := (w1.print ("Creating tar.gz: " ++ pathToString tar)).withFs
    (w1.fs.putArchive tar (w1.fs.filesUnder src))
  let fs1 := if w2.fs.pathExists extracted then w2.fs.removeTree extracted else w2.fs
  let w3 := w2.withFs (fs1.mkdirs extracted)
  w3.withFs (extractAll w3.fs extracted (w1.fs.filesUnder src))

/-! ### Concrete fixtures for witnesses and counterexamples -/

def emptyFS : FS := ⟨[], [], []⟩

def emptyWorld : World := ⟨emptyFS, [], [], []⟩

def demoTm : Tm := ⟨2025, 1, 2, 3, 4, 5⟩

def demoPcLinux : PlatformConfig := ⟨"Linux", ["home", "u"], []⟩

def demoPcDarwin : PlatformConfig := ⟨"Darwin", ["home", "u"], []⟩

def demoLinux : AptAn := ⟨demoPcLinux, none⟩

def demoLinuxG : AptAn := ⟨demoPcLinux, some ⟨"k"⟩⟩

def demoDarwin : AptAn := ⟨demoPcDarwin, none⟩

def demoDarwinG : AptAn := ⟨demoPcDarwin, some ⟨"k"⟩⟩

/-- A benign environment: apt-get works and produces `pkg-1.0/Makefile`,
all external tools succeed, the clock reads `demoTm`. -/
def demoEnvBase : Env :=
  { hasAptGet := true
    aptGetOk := true
    aptOutDirs := [["pkg-1.0"]]
    aptOutFiles := [(["pkg-1.0", "Makefile"], FileContent.text "all:")]
    downloadOk := true
    downloadedEntries := []
    buildOk := true
    xcodebuildOk := true
    hasIPython := true
    promptNetwork := "y"
    promptSystem := "y"
    now := demoTm }

/-- Same, but apt-get also delivers a `main.c`. -/
def demoEnvJs : Env :=
  { demoEnvBase with aptOutFiles := [(["pkg-1.0", "main.c"], FileContent.text "int main()")] }

/-- URL-acquisition environment whose downloaded archive holds a Swift file. -/
def demoEnvIos : Env :=
  { demoEnvBase with
      hasAptGet := false
      downloadedEntries := [(["pkg-1.0", "x.swift"], FileContent.text "s")] }

/-- URL-acquisition environment whose downloaded archive has no `main.c`. -/
def demoEnvPy : Env :=
  { demoEnvBase with
      hasAptGet := false
      downloadedEntries := [(["pkg-1.0", "foo.c"], FileContent.text "x")] }

/-- Environment in which `apt-get source` exits nonzero. -/
def demoEnvAptFail : Env := { demoEnvBase with aptGetOk := false }

/-- A world holding a single `main.c` under directory `e`. -/
def demoWorldMainC : World :=
  ⟨⟨[(["e", "main.c"], FileContent.text "int main()")], [], []⟩, [], [], []⟩

/-- A world holding a single source file under directory `s`. -/
def demoWorldSrc : World :=
  ⟨⟨[(["s", "a.c"], FileContent.text "x")], [], []⟩, [], [], []⟩

/-! ### Basic lemmas about the state model -/

@[simp] theorem calls_print (w : World) (s : String) : (w.print s).calls = w.calls := rfl

@[simp] theorem calls_runProc (w : World) (c : String) : (w.runProc c).calls = w.calls := rfl

@[simp] theorem calls_withFs (w : World) (fs : FS) : (w.withFs fs).calls = w.calls := rfl

@[simp] theorem calls_writeF (w : World) (p : Path) (c : FileContent) :
    (w.writeF p c).calls = w.calls := rfl

@[simp] theorem calls_call (w : World) (n : String) : (w.call n).calls = w.calls ++ [n] := rfl

@[simp] theorem procs_print (w : World) (s : String) : (w.print s).procs = w.procs := rfl

@[simp] theorem procs_withFs (w : World) (fs : FS) : (w.withFs fs).procs = w.procs := rfl

@[simp] theorem procs_writeF (w : World) (p : Path) (c : FileContent) :
    (w.writeF p c).procs = w.procs := rfl

@[simp] theorem procs_call (w : World) (n : String) : (w.call n).procs = w.procs := rfl

@[simp] theorem procs_runProc (w : World) (c : String) :
    (w.runProc c).procs = w.procs ++ [c] := rfl

@[simp] theorem out_print (w : World) (s : String) : (w.print s).out = w.out ++ [s] := rfl

@[simp] theorem out_runProc (w : World) (c : String) : (w.runProc c).out = w.out := rfl

@[simp] theorem out_withFs (w : World) (fs : FS) : (w.withFs fs).out = w.out := rfl

@[simp] theorem out_writeF (w : World) (p : Path) (c : FileContent) :
    (w.writeF p c).out = w.out := rfl

@[simp] theorem out_call (w : World) (n : String) : (w.call n).out = w.out := rfl

@[simp] theorem fs_print (w : World) (s : String) : (w.print s).fs = w.fs := rfl

@[simp] theorem fs_runProc (w : World) (c : String) : (w.runProc c).fs = w.fs := rfl

@[simp] theorem fs_call (w : World) (n : String) : (w.call n).fs = w.fs := rfl

@[simp] theorem fs_withFs (w : World) (fs : FS) : (w.withFs fs).fs = fs := rfl

@[simp] theorem fs_writeF (w : World) (p : Path) (c : FileContent) :
    (w.writeF p c).fs = w.fs.writeFile p c := rfl

theorem stripPrefix?_eq_some {base p r : Path} :
    stripPrefix? base p = some r ↔ p = base ++ r := by
  induction base generalizing p with
  | nil =>
    simp only [stripPrefix?, Option.some.injEq, List.nil_append]
  | cons a as ih =>
    cases p with
    | nil => simp [stripPrefix?]
    | cons b bs =>
      by_cases hab : a = b
      · subst hab
        simp [stripPrefix?, ih]
      · constructor
        · intro h
          simp [stripPrefix?, hab] at h
        · intro h
          rw [List.cons_append] at h
          injection h with h1 h2
          exact absurd h1.symm hab

theorem stripPrefix?_self_append (base r : Path) : stripPrefix? base (base ++ r) = some r :=
  stripPrefix?_eq_some.mpr rfl

theorem lookupPath_removeKey_ne {p q : Path} (h : q ≠ p) (l : List (Path × FileContent)) :
    lookupPath q (removeKey p l) = lookupPath q l := by
  induction l with
  | nil => rfl
  | cons e t ih =>
    by_cases he : e.1 = p
    · have hq : ¬ e.1 = q := fun hh => h (hh.symm.trans he)
      simp only [removeKey, if_pos he, lookupPath, if_neg hq, ih]
    · simp only [removeKey, if_neg he, lookupPath]
      by_cases hq : e.1 = q
      · rw [if_pos hq, if_pos hq]
      · rw [if_neg hq, if_neg hq, ih]

theorem countKey_removeKey_self (p : Path) (l : List (Path × FileContent)) :
    countKey p (removeKey p l) = 0 := by
  induction l with
  | nil => rfl
  | cons e t ih =>
    by_cases he : e.1 = p
    · simp [removeKey, he, ih]
    · simp [removeKey, he, countKey, ih]

theorem countKey_removeKey_ne {p q : Path} (h : q ≠ p) (l : List (Path × FileContent)) :
    countKey q (removeKey p l) = countKey q l := by
  induction l with
  | nil => rfl
  | cons e t ih =>
    by_cases he : e.1 = p
    · have hq : ¬ e.1 = q := fun hh => h (hh.symm.trans he)
      simp only [removeKey, if_pos he, countKey, if_neg hq, ih]
      omega
    · simp only [removeKey, if_neg he, countKey, ih]

@[simp] theorem readFile?_writeFile_self (fs : FS) (p : Path) (c : FileContent) :
    (fs.writeFile p c).readFile? p = some c := by
  simp [FS.writeFile, FS.readFile?, lookupPath]

theorem readFile?_writeFile_ne (fs : FS) {p q : Path} (h : q ≠ p) (c : FileContent) :
    (fs.writeFile p c).readFile? q = fs.readFile? q := by
  simp only [FS.writeFile, FS.readFile?, lookupPath]
  rw [if_neg (fun hh => h hh.symm), lookupPath_removeKey_ne h]

@[simp] theorem countKey_writeFile_self (fs : FS) (p : Path) (c : FileContent) :
    countKey p (fs.writeFile p c).files = 1 := by
  simp [FS.writeFile, countKey, countKey_removeKey_self]

theorem countKey_writeFile_ne (fs : FS) {p q : Path} (h : q ≠ p) (c : FileContent) :
    countKey q (fs.writeFile p c).files = countKey q fs.files := by
  simp only [FS.writeFile, countKey]
  rw [if_neg (fun hh => h hh.symm), countKey_removeKey_ne h]
  omega

@[simp] theorem lookupArc_putArchive_self (fs : FS) (p : Path) (es : List (Path × FileContent)) :
    (fs.putArchive p es).lookupArchive p = some es := by
  simp [FS.putArchive, FS.lookupArchive, lookupArc]

@[simp] theorem files_putArchive (fs : FS) (p : Path) (es : List (Path × FileContent)) :
    (fs.putArchive p es).files = fs.files := rfl

@[simp] theorem dirs_writeFile (fs : FS) (p : Path) (c : FileContent) :
    (fs.writeFile p c).dirs = fs.dirs := rfl

@[simp] theorem dirs_mkdirs (fs : FS) (p : Path) :
    (fs.mkdirs p).dirs = p.inits ++ fs.dirs := rfl

@[simp] theorem files_mkdirs (fs : FS) (p : Path) : (fs.mkdirs p).files = fs.files := rfl

theorem lookupPath_eq_none_of_not_mem {p : Path} {l : List (Path × FileContent)}
    (h : p ∉ l.map Prod.fst) : lookupPath p l = none := by
  induction l with
  | nil => rfl
  | cons e t ih =>
    simp only [List.map_cons, List.mem_cons] at h
    push_neg at h
    rw [lookupPath, if_neg (fun hh => h.1 hh.symm), ih h.2]

@[simp] theorem extractAll_nil (fs : FS) (dest : Path) : extractAll fs dest [] = fs := rfl

theorem extractAll_cons (fs : FS) (dest : Path) (e : Path × FileContent)
    (t : List (Path × FileContent)) :
    extractAll fs dest (e :: t) = extractAll (fs.writeFile (dest ++ e.1) e.2) dest t := rfl

/-- Reading below the extraction target after `extractAll`: a path present
among the (duplicate-free) archive members has the member's contents, any
other path is untouched. -/
theorem extractAll_read (dest : Path) (entries : List (Path × FileContent))
    (hnd : (entries.map Prod.fst).Nodup) (fs : FS) (r : Path) :
    (extractAll fs dest entries).readFile? (dest ++ r) =
      (lookupPath r entries).elim (fs.readFile? (dest ++ r)) some := by
  induction entries generalizing fs with
  | nil => rfl
  | cons e t ih =>
    rw [extractAll_cons]
    have hnd' : (t.map Prod.fst).Nodup := (List.nodup_cons.mp hnd).2
    have he1 : e.1 ∉ t.map Prod.fst := (List.nodup_cons.mp hnd).1
    by_cases hr : e.1 = r
    · subst hr
      have hlk : lookupPath e.1 t = none := lookupPath_eq_none_of_not_mem he1
      rw [ih hnd']
      simp [lookupPath, hlk]
    · rw [ih hnd']
      simp only [lookupPath, if_neg hr]
      cases hlk : lookupPath r t with
      | some c => simp
      | none =>
        simp only [Option.elim]
        exact readFile?_writeFile_ne fs
          (fun hh => hr (List.append_cancel_left hh).symm) e.2

/-- `os.walk`-relative entries looked up by relative path agree with the
file system looked up by absolute path. -/
theorem lookupPath_filesUnder (fs : FS) (base : Path) {r : Path} (hr : r ≠ []) :
    lookupPath r (fs.filesUnder base) = fs.readFile? (base ++ r) := by
  unfold FS.filesUnder FS.readFile?
  induction fs.files with
  | nil => rfl
  | cons e t ih =>
    cases hsp : stripPrefix? base e.1 with
    | none =>
      have hne : ¬ e.1 = base ++ r := by
        intro hh
        rw [hh, stripPrefix?_self_append] at hsp
        cases hsp
      simp only [List.filterMap_cons, hsp, lookupPath, if_neg hne, ih]
    | some rr =>
      cases rr with
      | nil =>
        have he1 : e.1 = base := by
          have := stripPrefix?_eq_some.mp hsp
          simpa using this
        have hne : ¬ e.1 = base ++ r := by
          intro hh
          rw [he1] at hh
          have hlen := congrArg List.length hh
          simp only [List.length_append] at hlen
          have : r.length = 0 := by omega
          exact hr (List.length_eq_zero.mp this)
        simp only [List.filterMap_cons, hsp, lookupPath, if_neg hne, ih]
      | cons c cs =>
        have he1 : e.1 = base ++ (c :: cs) := stripPrefix?_eq_some.mp hsp
        simp only [List.filterMap_cons, hsp, lookupPath]
        by_cases hq : (c :: cs : Path) = r
        · rw [if_pos hq, if_pos (by rw [he1, hq])]
        · rw [if_neg hq,
            if_neg (fun hh => hq (by rw [he1] at hh; exact List.append_cancel_left hh)), ih]

/-- After `shutil.rmtree(base)` nothing is readable below `base`. -/
theorem readFile?_removeTree_under (fs : FS) (base r : Path) :
    (fs.removeTree base).readFile? (base ++ r) = none := by
  unfold FS.removeTree FS.readFile?
  simp only
  induction fs.files with
  | nil => rfl
  | cons e t ih =>
    cases hsp : stripPrefix? base e.1 with
    | none =>
      have hne : ¬ e.1 = base ++ r := by
        intro hh
        rw [hh, stripPrefix?_self_append] at hsp
        cases hsp
      simp only [List.filter_cons, hsp, Option.isNone_none, if_true, lookupPath, if_neg hne]
      exact ih
    | some rr =>
      rw [List.filter_cons]
      simp only [hsp, Option.isNone_some, Bool.false_eq_true, if_false]
      exact ih

theorem dirs_foldl_writeFile (es : List (Path × FileContent)) (base : Path) (fs : FS) :
    (es.foldl (fun f e => f.writeFile (base ++ e.1) e.2) fs).dirs = fs.dirs := by
  induction es generalizing fs with
  | nil => rfl
  | cons e t ih => simp only [List.foldl_cons, ih, dirs_writeFile]

theorem mem_dirs_foldl_mkdirs (ds : List Path) (base : Path) (fs : FS) {p : Path}
    (h : p ∈ fs.dirs) :
    p ∈ (ds.foldl (fun f d => f.mkdirs (base ++ d)) fs).dirs := by
  induction ds generalizing fs with
  | nil => exact h
  | cons d t ih =>
    exact ih _ (by simp only [dirs_mkdirs, List.mem_append]; exact Or.inr h)

theorem self_mem_dirs_mkdirs (fs : FS) (p : Path) : p ∈ (fs.mkdirs p).dirs := by
  simp only [dirs_mkdirs, List.mem_append]
  exact Or.inl ((List.mem_inits _ _).mpr (List.prefix_refl p))

theorem isDir_of_mem_dirs {fs : FS} {p : Path} (h : p ∈ fs.dirs) : fs.isDir p = true := by
  unfold FS.isDir
  apply Bool.or_eq_true_iff.mpr
  exact Or.inl (List.any_eq_true.mpr ⟨p, h, by simp⟩)

theorem mem_dirs_applyEntries (fs : FS) (base : Path) (ds : List Path)
    (es : List (Path × FileContent)) {p : Path} (h : p ∈ fs.dirs) :
    p ∈ (applyEntries fs base ds es).dirs := by
  unfold applyEntries
  rw [dirs_foldl_writeFile]
  exact mem_dirs_foldl_mkdirs ds base fs h

/-! ### Which stages touch which parts of the observable state -/

theorem calls_analyze_suitability (env : Env) (w : World) (s p : String) :
    ((Gemini.analyze_suitability env w s p).2).calls = w.calls := by
  simp only [Gemini.analyze_suitability]
  repeat' split
  all_goals rfl

theorem calls_suggest_alternatives (w : World) (p : String) :
    (Gemini.suggest_alternatives w p).calls = w.calls := by
  simp only [Gemini.suggest_alternatives]
  split <;> rfl

theorem calls_build_native (a : AptAn) (env : Env) (w : World) (d : Path) (p : String) :
    ((build_native a env w d p).2).calls = w.calls ++ ["build_native"] := by
  simp only [build_native]
  repeat' split
  all_goals rfl

theorem calls_translate_to_language (a : AptAn) (w : World) (d : Path) (p l : String) :
    ((translate_to_language a w d p l).2).calls = w.calls ++ ["translate_to_language"] := by
  simp only [translate_to_language]
  repeat' split
  all_goals rfl

theorem calls_build_ios_app (a : AptAn) (env : Env) (w : World) (d : Path) (p : String) :
    ((build_ios_app a env w d p).2).calls = w.calls ++ ["build_ios_app"] := by
  simp only [build_ios_app]
  repeat' split
  all_goals rfl

theorem calls_install_and_configure (a : AptAn) (env : Env) (w : World) (d : Path)
    (p : String) (ie : Option String) :
    (install_and_configure a env w d p ie).calls = w.calls ++ ["install_and_configure"] := by
  simp only [install_and_configure]
  repeat' split
  all_goals rfl

theorem calls_download_source (a : AptAn) (env : Env) (w : World) (p : String)
    (u : Option String) :
    ((download_source a env w p u).2).calls = w.calls := by
  simp only [download_source]
  repeat' split
  all_goals rfl

theorem calls_convert_to_targz (a : AptAn) (w : World) (s : Path) (p : String) :
    ((convert_to_targz a w s p).2).calls = w.calls := rfl

theorem mem_out_build_native {s : String} (a : AptAn) (env : Env) (w : World) (d : Path)
    (p : String) (h : s ∈ w.out) : s ∈ ((build_native a env w d p).2).out := by
  simp only [build_native]
  repeat' split
  all_goals simp_all [World.print, World.runProc, World.call, List.mem_append]

theorem mem_out_install_and_configure {s : String} (a : AptAn) (env : Env) (w : World)
    (d : Path) (p : String) (ie : Option String) (h : s ∈ w.out) :
    s ∈ (install_and_configure a env w d p ie).out := by
  simp only [install_and_configure]
  repeat' split
  all_goals simp_all [World.print, World.runProc, World.call, World.withFs, World.writeF,
    List.mem_append]

theorem calls_install_package_gate (a : AptAn) (env : Env) (w : World) (ex : Path)
    (p : String) :
    ((install_package_gate a env w ex p).2).calls = w.calls := by
  simp only [install_package_gate]
  split
  · split
    · exact calls_analyze_suitability ..
    · rw [calls_suggest_alternatives, calls_analyze_suitability]
  · rfl

@[simp] theorem archives_mkdirs (fs : FS) (p : Path) : (fs.mkdirs p).archives = fs.archives := rfl

@[simp] theorem archives_removeTree (fs : FS) (p : Path) :
    (fs.removeTree p).archives = fs.archives.filter (fun e => (stripPrefix? p e.1).isNone) := rfl

@[simp] theorem archives_writeFile (fs : FS) (p : Path) (c : FileContent) :
    (fs.writeFile p c).archives = fs.archives := rfl

theorem stripPrefix?_ne_last (l : Path) {x y : String} (hxy : x ≠ y) :
    stripPrefix? (l ++ [x]) (l ++ [y]) = none := by
  cases h : stripPrefix? (l ++ [x]) (l ++ [y]) with
  | none => rfl
  | some r =>
    have h1 := stripPrefix?_eq_some.mp h
    rw [List.append_assoc] at h1
    have h2 := List.append_cancel_left h1
    injection h2 with h3
    exact absurd h3.symm hxy

theorem extracted_comp_ne (pkg : String) : pkg ++ "_extracted" ≠ pkg ++ ".tar.gz" := by
  intro h
  have hlen := congrArg String.length h
  have h10 : ("_extracted" : String).length = 10 := rfl
  have h7 : (".tar.gz" : String).length = 7 := rfl
  rw [String.length_append, String.length_append, h10, h7] at hlen
  omega

/-- The archive written by `convert_to_targz` survives the deletion and
re-creation of the stale `<name>_extracted` directory: looking it up still
yields its members. -/
theorem lookupArchive_after_refresh (fs : FS) (sd : Path) (pkg : String)
    (es : List (Path × FileContent)) (C : Bool) :
    ((if C then (fs.putArchive (sd ++ [pkg ++ ".tar.gz"]) es).removeTree
        (sd ++ [pkg ++ "_extracted"])
      else fs.putArchive (sd ++ [pkg ++ ".tar.gz"]) es).mkdirs
        (sd ++ [pkg ++ "_extracted"])).lookupArchive (sd ++ [pkg ++ ".tar.gz"]) = some es := by
  simp only [FS.lookupArchive, archives_mkdirs]
  cases C with
  | false => simp [FS.putArchive, lookupArc]
  | true =>
    simp only [if_pos, archives_removeTree, FS.putArchive, List.filter_cons]
    rw [if_pos]
    · simp [lookupArc]
    · simp [stripPrefix?_ne_last _ (extracted_comp_ne pkg)]

theorem readFile?_appendText_ne (fs : FS) {p q : Path} (h : q ≠ p) (s : String) :
    (fs.appendText p s).readFile? q = fs.readFile? q := by
  unfold FS.appendText
  exact readFile?_writeFile_ne _ h _

theorem countKey_appendText_ne (fs : FS) {p q : Path} (h : q ≠ p) (s : String) :
    countKey q (fs.appendText p s).files = countKey q fs.files := by
  unfold FS.appendText
  exact countKey_writeFile_ne _ h _

theorem last_comp_ne {x y : String} (hxy : x ≠ y) (l1 l2 : Path) : l1 ++ [x] ≠ l2 ++ [y] := by
  intro h
  have h1 : (l1 ++ [x]).getLast? = some x := List.getLast?_concat _
  have h2 : (l2 ++ [y]).getLast? = some y := List.getLast?_concat _
  rw [h, h2] at h1
  injection h1 with h3
  exact hxy h3.symm

theorem bashrc_ne_conf (pkg : String) : (".bashrc" : String) ≠ pkg ++ "_config.json" := by
  intro h
  have hlen := congrArg String.length h
  have h7 : (".bashrc" : String).length = 7 := rfl
  have h12 : ("_config.json" : String).length = 12 := rfl
  rw [String.length_append, h7, h12] at hlen
  omega

/-- Inside the build-or-translate block the installer runs only in branches
that end in overall success. -/
theorem dispatch_installer_gated (a : AptAn) (env : Env) (w : World) (ex : Path)
    (pkg tgt : String) (ie : Option String)
    (h0 : "install_and_configure" ∉ w.calls) :
    "install_and_configure" ∈ ((install_package_dispatch a env w ex pkg tgt ie).2).calls →
      (install_package_dispatch a env w ex pkg tgt ie).1 = Except.ok true := by
  simp only [install_package_dispatch]
  split
  · split
    · intro h
      exact absurd h h0
    · split
      · intro _
        rfl
      · intro _
        rfl
  · split
    · split
      · intro _
        rfl
      · intro h
        rw [calls_build_native] at h
        rcases List.mem_append.mp h with h | h
        · exact absurd h h0
        · simp at h
    · split
      · split
        · intro _
          rfl
        · intro h
          rw [calls_build_ios_app] at h
          rcases List.mem_append.mp h with h | h
          · exact absurd h h0
          · simp at h
      · split
        · split
          · intro _
            rfl
          · intro h
            rw [calls_translate_to_language] at h
            rcases List.mem_append.mp h with h | h
            · exact absurd h h0
            · simp at h
        · split
          · intro _
            rfl
          · intro h
            rw [calls_build_native] at h
            rcases List.mem_append.mp h with h | h
            · exact absurd h h0
            · simp at h

/-- `install_package` either short-circuits with a failure result and no
new stage calls, or reaches the dispatch block on a world whose call trace
is unchanged. -/
theorem install_package_shape (a : AptAn) (env : Env) (w : World) (pkg : String)
    (url : Option String) (tgt : String) (ie : Option String) :
    (∃ w', install_package a env w pkg url tgt ie = (Except.ok false, w') ∧
        w'.calls = w.calls) ∨
    (∃ w', w'.calls = w.calls ∧
        install_package a env w pkg url tgt ie =
          install_package_dispatch a env w' (a.source_dir ++ [pkg ++ "_extracted"]) pkg tgt ie) := by
  cases hdl : download_source a env w pkg url with
  | mk o1 w1 =>
  have hw1 : w1.calls = w.calls := by
    have h := calls_download_source a env w pkg url
    rw [hdl] at h
    exact h
  cases o1 with
  | none =>
    left
    exact ⟨w1, by simp only [install_package, hdl], hw1⟩
  | some src =>
    have hcw : (postExtractWorld a w1 src pkg).calls = w1.calls := rfl
    have heq :
        install_package a env w pkg url tgt ie =
          (if (install_package_gate a env (postExtractWorld a w1 src pkg)
              (a.source_dir ++ [pkg ++ "_extracted"]) pkg).1 then
            (Except.ok false,
              (install_package_gate a env (postExtractWorld a w1 src pkg)
                (a.source_dir ++ [pkg ++ "_extracted"]) pkg).2)
          else
            install_package_dispatch a env
              (install_package_gate a env (postExtractWorld a w1 src pkg)
                (a.source_dir ++ [pkg ++ "_extracted"]) pkg).2
              (a.source_dir ++ [pkg ++ "_extracted"]) pkg tgt ie) := by
      simp only [install_package, hdl, convert_to_targz, fs_withFs, fs_print]
      rw [lookupArchive_after_refresh]
      rfl
    rw [heq]
    split
    · left
      refine ⟨_, rfl, ?_⟩
      rw [calls_install_package_gate, hcw, hw1]
    · right
      refine ⟨_, ?_, rfl⟩
      rw [calls_install_package_gate, hcw, hw1]

/-- The state of the install root after one `install_and_configure` run:
the `<name>_config.json` sidecar holds exactly the three-field record of
this run, and it is the only entry at that path. -/
theorem install_record_read (a : AptAn) (env : Env) (w : World) (d : Path) (pkg : String)
    (ie : Option String) :
    (install_and_configure a env w d pkg ie).fs.readFile?
        (installPathOf a pkg ie ++ [pkg ++ "_config.json"]) =
      some (FileContent.record
        { package_name := pkg
          install_time := strftimeYmdHms env.now
          platform := a.platform_config.system }) ∧
    countKey (installPathOf a pkg ie ++ [pkg ++ "_config.json"])
        (install_and_configure a env w d pkg ie).fs.files = 1 := by
  have hne : a.platform_config.home_dir ++ [".bashrc"] ≠
      installPathOf a pkg ie ++ [pkg ++ "_config.json"] :=
    last_comp_ne (bashrc_ne_conf pkg) _ _
  simp only [install_and_configure]
  split
  · constructor
    · rw [fs_print, fs_withFs, readFile?_appendText_ne _ hne.symm, fs_writeF,
        readFile?_writeFile_self]
    · rw [fs_print, fs_withFs, countKey_appendText_ne _ hne.symm, fs_writeF,
        countKey_writeFile_self]
  · constructor
    · rw [fs_print, fs_writeF, readFile?_writeFile_self]
    · rw [fs_print, fs_writeF, countKey_writeFile_self]

/-! ### Claim theorems -/

/-- Claim C1 (amended): `install_and_configure` executes only in runs of
`install_package` that return overall success — the branches that reach it
do so right after their build or translation backend returned `true` — and
whenever the pipeline returns failure the installer was never invoked (no
install state is persisted, as the installer is the only stage that writes
the install record).  The claim's "if and only if" does not hold: see the
counterexample (a successful `ios` run never calls the installer). -/
theorem c1_installer_only_on_success (a : AptAn) (env : Env) (w : World)
    (pkg : String) (url : Option String) (tgt : String) (ie : Option String)
    (h0 : "install_and_configure" ∉ w.calls) :
    ("install_and_configure" ∈ ((install_package a env w pkg url tgt ie).2).calls →
      (install_package a env w pkg url tgt ie).1 = Except.ok true) ∧
    ((install_package a env w pkg url tgt ie).1 = Except.ok false →
      "install_and_configure" ∉ ((install_package a env w pkg url tgt ie).2).calls) := by
  have main : "install_and_configure" ∈ ((install_package a env w pkg url tgt ie).2).calls →
      (install_package a env w pkg url tgt ie).1 = Except.ok true := by
    rcases install_package_shape a env w pkg url tgt ie with ⟨w', heq, hc⟩ | ⟨w', hc, heq⟩
    · rw [heq]
      intro h
      rw [hc] at h
      exact absurd h h0
    · rw [heq]
      apply dispatch_installer_gated
      rw [hc]
      exact h0
  refine ⟨main, fun hf hm => ?_⟩
  have hcontra := main hm
  rw [hf] at hcontra
  exact Bool.noConfusion (Except.ok.inj hcontra)

/-- Claim C1, counterexample to "if and only if": on macOS with a working
`xcodebuild`, `install_package` with target `ios` returns success while
`install_and_configure` never executes. -/
theorem c1_counterexample :
    (install_package demoDarwin demoEnvIos (demoDarwin.setup emptyWorld)
        "foo" (some "u") "ios" none).1 = Except.ok true ∧
    "install_and_configure" ∉
      ((install_package demoDarwin demoEnvIos (demoDarwin.setup emptyWorld)
        "foo" (some "u") "ios" none).2).calls := by
  constructor
  · rfl
  · decide

theorem c1_witness :
    "install_and_configure" ∉ (demoLinux.setup emptyWorld).calls ∧
    (("install_and_configure" ∈ ((install_package demoLinux demoEnvBase
          (demoLinux.setup emptyWorld) "foo" none "native" none).2).calls →
        (install_package demoLinux demoEnvBase (demoLinux.setup emptyWorld)
          "foo" none "native" none).1 = Except.ok true) ∧
      ((install_package demoLinux demoEnvBase (demoLinux.setup emptyWorld)
          "foo" none "native" none).1 = Except.ok false →
        "install_and_configure" ∉ ((install_package demoLinux demoEnvBase
          (demoLinux.setup emptyWorld) "foo" none "native" none).2).calls)) :=
  ⟨by decide, c1_installer_only_on_success demoLinux demoEnvBase
    (demoLinux.setup emptyWorld) "foo" none "native" none (by decide)⟩


/-- Claim C2 (code bug evaluation): with target `python`, a configured
Gemini, and an extracted tree lacking `main.c`, `install_package` performs
an unguarded `open(main_c)` and a file-not-found error escapes instead of
a boolean result. -/
theorem c2_python_no_mainc_raises :
    (install_package demoDarwinG demoEnvPy (demoDarwinG.setup emptyWorld)
        "foo" (some "u") "python" none).1 = Except.error PyErr.fileNotFound := by
  rfl

/-- Claim C3, counterexample: a fully successful native install persists a
record whose fields are exactly `package_name`, `install_time` (local
`YYYY-MM-DD HH:MM:SS`) and `platform` — there is no `installPath` field. -/
theorem c3_counterexample :
    (install_package demoLinux demoEnvBase (demoLinux.setup emptyWorld)
        "foo" none "native" none).1 = Except.ok true ∧
    ((install_package demoLinux demoEnvBase (demoLinux.setup emptyWorld)
        "foo" none "native" none).2).fs.readFile? ["usr", "local", "lib", "foo_config.json"] =
      some (FileContent.record ⟨"foo", "2025-01-02 03:04:05", "Linux"⟩) ∧
    "installPath" ∉ ConfRecord.keys := by
  refine ⟨rfl, rfl, by decide⟩

/-- Claim C3 (amended): every successful install persists the JSON sidecar
`<name>_config.json` next to the installed artifacts, holding exactly the
package name, the install time in local `YYYY-MM-DD HH:MM:SS` form (not
ISO-8601 `T` form), and the platform; it has no install-path field. -/
theorem c3_record_fields (a : AptAn) (env : Env) (w : World) (dir : Path) (pkg : String)
    (ie : Option String) :
    (install_and_configure a env w dir pkg ie).fs.readFile?
        (installPathOf a pkg ie ++ [pkg ++ "_config.json"]) =
      some (FileContent.record
        { package_name := pkg
          install_time := strftimeYmdHms env.now
          platform := a.platform_config.system }) ∧
    ConfRecord.keys = ["package_name", "install_time", "platform"] :=
  ⟨(install_record_read a env w dir pkg ie).1, rfl⟩

/-- Claim C4: installing the same package twice into the same install root
leaves exactly one install-record entry at the sidecar path, and its
content carries the second run's install time (overwrite, not append). -/
theorem c4_second_install_overwrites (a : AptAn) (env1 env2 : Env) (w : World)
    (dir : Path) (pkg : String) (ie : Option String) :
    countKey (installPathOf a pkg ie ++ [pkg ++ "_config.json"])
        (install_and_configure a env2
          (install_and_configure a env1 w dir pkg ie) dir pkg ie).fs.files = 1 ∧
    (install_and_configure a env2
        (install_and_configure a env1 w dir pkg ie) dir pkg ie).fs.readFile?
        (installPathOf a pkg ie ++ [pkg ++ "_config.json"]) =
      some (FileContent.record
        { package_name := pkg
          install_time := strftimeYmdHms env2.now
          platform := a.platform_config.system }) :=
  ⟨(install_record_read a env2 _ dir pkg ie).2,
    (install_record_read a env2 _ dir pkg ie).1⟩


/-- Claim C5: the build-or-translate block is a function of the target
string, and every target outside the recognized set takes the NativeBuilder
code path: `build_native` is entered, neither `build_ios_app` nor
`translate_to_language` ever runs, the unknown target is reported with a
printed warning, and the block still returns an ordinary boolean result
rather than aborting. -/
theorem c5_unknown_target_falls_back_native (a : AptAn) (env : Env) (w : World)
    (ex : Path) (pkg tgt : String) (ie : Option String)
    (h : tgt ∉ ["python", "native", "ios", "javascript", "swift"])
    (hb : "build_ios_app" ∉ w.calls) (ht : "translate_to_language" ∉ w.calls) :
    "build_native" ∈ ((install_package_dispatch a env w ex pkg tgt ie).2).calls ∧
    "build_ios_app" ∉ ((install_package_dispatch a env w ex pkg tgt ie).2).calls ∧
    "translate_to_language" ∉ ((install_package_dispatch a env w ex pkg tgt ie).2).calls ∧
    ("Unknown target " ++ tgt ++ ". Attempting native build.") ∈
      ((install_package_dispatch a env w ex pkg tgt ie).2).out ∧
    ∃ b, (install_package_dispatch a env w ex pkg tgt ie).1 = Except.ok b := by
  simp only [List.mem_cons, List.mem_nil_iff, not_or, not_false_iff, and_true] at h
  obtain ⟨h1, h2, h3, h4, h5⟩ := h
  simp only [install_package_dispatch, if_neg (fun hc : tgt = "python" ∧ _ => h1 hc.1),
    if_neg h2, if_neg h3,
    if_neg (fun hc : tgt = "javascript" ∨ tgt = "swift" => hc.elim h4 h5)]
  split
  · refine ⟨?_, ?_, ?_, ?_, true, rfl⟩
    · rw [calls_install_and_configure, calls_build_native, calls_print]
      simp
    · rw [calls_install_and_configure, calls_build_native, calls_print]
      simp only [List.mem_append, List.mem_singleton, not_or]
      exact ⟨⟨hb, by decide⟩, by decide⟩
    · rw [calls_install_and_configure, calls_build_native, calls_print]
      simp only [List.mem_append, List.mem_singleton, not_or]
      exact ⟨⟨ht, by decide⟩, by decide⟩
    · apply mem_out_install_and_configure
      apply mem_out_build_native
      simp [World.print]
  · refine ⟨?_, ?_, ?_, ?_, false, rfl⟩
    · rw [calls_build_native, calls_print]
      simp
    · rw [calls_build_native, calls_print]
      simp only [List.mem_append, List.mem_singleton, not_or]
      exact ⟨hb, by decide⟩
    · rw [calls_build_native, calls_print]
      simp only [List.mem_append, List.mem_singleton, not_or]
      exact ⟨ht, by decide⟩
    · apply mem_out_build_native
      simp [World.print]

theorem c5_witness :
    ("wasm" : String) ∉ ["python", "native", "ios", "javascript", "swift"] ∧
    ("build_ios_app" ∉ emptyWorld.calls ∧ "translate_to_language" ∉ emptyWorld.calls) ∧
    ("build_native" ∈ ((install_package_dispatch demoLinux demoEnvBase emptyWorld
        ["e"] "foo" "wasm" none).2).calls ∧
      "build_ios_app" ∉ ((install_package_dispatch demoLinux demoEnvBase emptyWorld
        ["e"] "foo" "wasm" none).2).calls ∧
      "translate_to_language" ∉ ((install_package_dispatch demoLinux demoEnvBase emptyWorld
        ["e"] "foo" "wasm" none).2).calls ∧
      ("Unknown target " ++ "wasm" ++ ". Attempting native build.") ∈
        ((install_package_dispatch demoLinux demoEnvBase emptyWorld
          ["e"] "foo" "wasm" none).2).out ∧
      ∃ b, (install_package_dispatch demoLinux demoEnvBase emptyWorld
        ["e"] "foo" "wasm" none).1 = Except.ok b) :=
  ⟨by decide, ⟨by decide, by decide⟩,
    c5_unknown_target_falls_back_native demoLinux demoEnvBase emptyWorld
      ["e"] "foo" "wasm" none (by decide) (by decide) (by decide)⟩


/-- Claim C6: for any source directory whose walk yields duplicate-free
relative paths, `convert_to_targz` followed by re-extraction of the
produced archive into a freshly cleared directory reproduces exactly the
original relative file paths with identical contents: for every non-empty
relative path, reading below the extraction target equals reading below
the source in the original file system (both the file set and the bytes
agree). -/
theorem c6_roundtrip (a : AptAn) (w : World) (src dest : Path) (pkg : String) (r : Path)
    (hnd : ((w.fs.filesUnder src).map Prod.fst).Nodup) (hr : r ≠ []) :
    (extractAll (((convert_to_targz a w src pkg).2).fs.removeTree dest) dest
        ((((convert_to_targz a w src pkg).2).fs.lookupArchive
          (a.source_dir ++ [pkg ++ ".tar.gz"])).getD [])).readFile? (dest ++ r) =
      w.fs.readFile? (src ++ r) := by
  simp only [convert_to_targz, fs_withFs, fs_print, lookupArc_putArchive_self,
    Option.getD_some]
  rw [extractAll_read dest _ hnd]
  rw [lookupPath_filesUnder w.fs src hr]
  cases hlk : w.fs.readFile? (src ++ r) with
  | some c => simp [Option.elim]
  | none =>
    simp only [Option.elim]
    exact readFile?_removeTree_under _ dest r

theorem c6_witness :
    ((demoWorldSrc.fs.filesUnder ["s"]).map Prod.fst).Nodup ∧
    (["a.c"] : Path) ≠ [] ∧
    (extractAll (((convert_to_targz demoLinux demoWorldSrc ["s"] "p").2).fs.removeTree ["d"])
        ["d"] ((((convert_to_targz demoLinux demoWorldSrc ["s"] "p").2).fs.lookupArchive
          (demoLinux.source_dir ++ ["p" ++ ".tar.gz"])).getD [])).readFile? (["d"] ++ ["a.c"]) =
      demoWorldSrc.fs.readFile? (["s"] ++ ["a.c"]) :=
  ⟨by decide, by decide,
    c6_roundtrip demoLinux demoWorldSrc ["s"] ["d"] "p" ["a.c"] (by decide) (by decide)⟩

/-- Claim C7: when the directory holds no `Makefile`, `build_native`
returns `false` and invokes no subprocess (the recorded invocation list is
unchanged). -/
theorem c7_no_makefile_skips (a : AptAn) (env : Env) (w : World) (dir : Path) (pkg : String)
    (h : w.fs.fileExists (dir ++ ["Makefile"]) = false) :
    (build_native a env w dir pkg).1 = false ∧
    ((build_native a env w dir pkg).2).procs = w.procs := by
  simp only [build_native]
  rw [if_pos]
  · exact ⟨rfl, rfl⟩
  · show ¬ (w.call "build_native").fs.fileExists (dir ++ ["Makefile"]) = true
    rw [fs_call, h]
    simp

theorem c7_witness :
    emptyWorld.fs.fileExists (["e"] ++ ["Makefile"]) = false ∧
    ((build_native demoLinux demoEnvBase emptyWorld ["e"] "foo").1 = false ∧
      ((build_native demoLinux demoEnvBase emptyWorld ["e"] "foo").2).procs =
        emptyWorld.procs) :=
  ⟨by decide, c7_no_makefile_skips demoLinux demoEnvBase emptyWorld ["e"] "foo" (by decide)⟩


theorem fileExists_of_readFile? {fs : FS} {p : Path} {c : FileContent}
    (h : fs.readFile? p = some c) : fs.fileExists p = true := by
  revert h
  unfold FS.readFile? FS.fileExists
  induction fs.files with
  | nil => intro h; cases h
  | cons e t ih =>
    intro h
    rw [lookupPath] at h
    by_cases he : e.1 = p
    · simp [List.any_cons, he]
    · rw [if_neg he] at h
      simp [List.any_cons, ih h]

theorem notSupported_ne_empty (lang : String) : ("// Not supported: " ++ lang) ≠ "" := by
  intro h
  have hlen := congrArg String.length h
  have h18 : ("// Not supported: " : String).length = 18 := rfl
  have h0 : ("" : String).length = 0 := rfl
  rw [String.length_append, h18, h0] at hlen
  omega

/-- Claim C8 (amended): with no API key the Gemini collaborator is absent;
the suitability-analysis gate is then skipped without failing, and the
translation stage reports "Gemini not configured." and returns a failure
result with the file system untouched — so for translation targets the
missing key does make the pipeline report failure (see the counterexample). -/
theorem c8_missing_key_disables (a : AptAn) (env : Env) (w : World) (dir : Path)
    (pkg lang : String) (hg : a.gemini = none) :
    (translate_to_language a w dir pkg lang).1 = false ∧
    "Gemini not configured." ∈ ((translate_to_language a w dir pkg lang).2).out ∧
    ((translate_to_language a w dir pkg lang).2).fs = w.fs ∧
    install_package_gate a env w dir pkg = (false, w) := by
  refine ⟨?_, ?_, ?_, ?_⟩
  · simp [translate_to_language, hg]
  · simp [translate_to_language, hg, World.print, World.call]
  · simp [translate_to_language, hg]
  · simp [install_package_gate, hg]

/-- Claim C8, counterexample: the same benign run succeeds with a key and
reports failure without one — the absence of the key does cause the
pipeline to report failure for a translation target, after printing
"Gemini not configured.". -/
theorem c8_counterexample :
    (install_package demoLinux demoEnvJs (demoLinux.setup emptyWorld)
        "foo" none "javascript" none).1 = Except.ok false ∧
    "Gemini not configured." ∈ ((install_package demoLinux demoEnvJs
        (demoLinux.setup emptyWorld) "foo" none "javascript" none).2).out ∧
    (install_package demoLinuxG demoEnvJs (demoLinuxG.setup emptyWorld)
        "foo" none "javascript" none).1 = Except.ok true := by
  refine ⟨?_, ?_, ?_⟩
  · rfl
  · decide
  · rfl

theorem c8_witness :
    demoLinux.gemini = none ∧
    ((translate_to_language demoLinux demoWorldMainC ["e"] "foo" "javascript").1 = false ∧
      "Gemini not configured." ∈
        ((translate_to_language demoLinux demoWorldMainC ["e"] "foo" "javascript").2).out ∧
      ((translate_to_language demoLinux demoWorldMainC ["e"] "foo" "javascript").2).fs =
        demoWorldMainC.fs ∧
      install_package_gate demoLinux demoEnvBase demoWorldMainC ["e"] "foo" =
        (false, demoWorldMainC)) :=
  ⟨rfl, c8_missing_key_disables demoLinux demoEnvBase demoWorldMainC ["e"]
    "foo" "javascript" rfl⟩

/-- Claim C9: for a target language outside the supported set
(`python`, `javascript`, `swift`), a configured Translator writes the stub
comment `// Not supported: <language>` to `<extractedDir>/<name>.<language>`
and reports success. -/
theorem c9_unsupported_language_stub (a : AptAn) (w : World) (dir : Path)
    (pkg lang : String) (g : Gemini) (hg : a.gemini = some g)
    (c : FileContent) (hmc : w.fs.readFile? (dir ++ ["main.c"]) = some c)
    (h1 : lang ≠ "python") (h2 : lang ≠ "javascript") (h3 : lang ≠ "swift") :
    (translate_to_language a w dir pkg lang).1 = true ∧
    ((translate_to_language a w dir pkg lang).2).fs.readFile?
        (dir ++ [pkg ++ "." ++ lang]) =
      some (FileContent.text ("// Not supported: " ++ lang)) := by
  have hfe : (w.call "translate_to_language").fs.fileExists (dir ++ ["main.c"]) = true :=
    fileExists_of_readFile? hmc
  simp only [translate_to_language, hg]
  rw [if_neg (not_not_intro hfe)]
  simp only [Gemini.generate_code, if_neg h1, if_neg h2, if_neg h3]
  rw [if_neg (notSupported_ne_empty lang)]
  exact ⟨rfl, by rw [fs_print, fs_writeF, readFile?_writeFile_self]⟩

theorem c9_witness :
    demoLinuxG.gemini = some ⟨"k"⟩ ∧
    demoWorldMainC.fs.readFile? (["e"] ++ ["main.c"]) =
      some (FileContent.text "int main()") ∧
    ((translate_to_language demoLinuxG demoWorldMainC ["e"] "foo" "rust").1 = true ∧
      ((translate_to_language demoLinuxG demoWorldMainC ["e"] "foo" "rust").2).fs.readFile?
          (["e"] ++ ["foo" ++ "." ++ "rust"]) =
        some (FileContent.text ("// Not supported: " ++ "rust"))) :=
  ⟨rfl, rfl, c9_unsupported_language_stub demoLinuxG demoWorldMainC ["e"] "foo" "rust"
    ⟨"k"⟩ rfl (FileContent.text "int main()") rfl
    (by decide) (by decide) (by decide)⟩

/-- Claim C10: on the Linux/apt-get acquisition path, `download_source`
creates `temp_<package>` under the source workspace and then invokes the
tool; when the tool fails or produces no subdirectory the function returns
`none` (failure) while the created temp directory is still present on disk
and the tool invocation was recorded — acquisition is not atomic on error. -/
theorem c10_failed_fetch_leaves_temp_dir (a : AptAn) (env : Env) (w : World)
    (pkg : String) (url : Option String)
    (hsys : a.platform_config.system = "Linux") (hapt : env.hasAptGet = true)
    (hfail : env.aptGetOk = false ∨
      subdirsOf (applyEntries (w.fs.mkdirs (a.source_dir ++ ["temp_" ++ pkg]))
          (a.source_dir ++ ["temp_" ++ pkg]) env.aptOutDirs env.aptOutFiles)
        (a.source_dir ++ ["temp_" ++ pkg]) = []) :
    (download_source a env w pkg url).1 = none ∧
    ((download_source a env w pkg url).2).fs.isDir
      (a.source_dir ++ ["temp_" ++ pkg]) = true ∧
    ("apt-get source " ++ pkg) ∈ ((download_source a env w pkg url).2).procs := by
  simp only [download_source]
  rw [if_pos ⟨hsys, hapt⟩]
  cases hok : env.aptGetOk with
  | false =>
    simp only [hok, Bool.false_eq_true, if_false]
    refine ⟨by simp, ?_, ?_⟩
    · simp only [fs_print, fs_runProc, fs_withFs]
      exact isDir_of_mem_dirs (self_mem_dirs_mkdirs w.fs _)
    · simp [World.runProc, World.print, World.withFs, List.mem_append]
  | true =>
    have hsub := hfail.resolve_left (by rw [hok]; exact fun hh => Bool.noConfusion hh)
    simp only [hok, if_true]
    simp only [fs_print, fs_runProc, fs_withFs]
    rw [hsub]
    refine ⟨by simp, ?_, ?_⟩
    · simp only [fs_print, fs_runProc, fs_withFs]
      apply isDir_of_mem_dirs
      apply mem_dirs_applyEntries
      exact self_mem_dirs_mkdirs w.fs _
    · simp [World.runProc, World.print, World.withFs, List.mem_append]

theorem c10_witness :
    demoLinux.platform_config.system = "Linux" ∧
    demoEnvAptFail.hasAptGet = true ∧
    demoEnvAptFail.aptGetOk = false ∧
    ((download_source demoLinux demoEnvAptFail (demoLinux.setup emptyWorld)
        "foo" none).1 = none ∧
      ((download_source demoLinux demoEnvAptFail (demoLinux.setup emptyWorld)
        "foo" none).2).fs.isDir (demoLinux.source_dir ++ ["temp_" ++ "foo"]) = true ∧
      ("apt-get source " ++ "foo") ∈ ((download_source demoLinux demoEnvAptFail
        (demoLinux.setup emptyWorld) "foo" none).2).procs) :=
  ⟨rfl, rfl, rfl,
    c10_failed_fetch_leaves_temp_dir demoLinux demoEnvAptFail
      (demoLinux.setup emptyWorld) "foo" none rfl rfl (Or.inl rfl)⟩

end Aptan
